import Mathlib

set_option maxHeartbeats 1600000

/-!  Verification development for the BookBuddy metadata core (src/main.py).

The embedding covers the Matcher (`_ol_cover_url`, `_ol_best_match`) and the
Seeder (`_ensure_seeded_curated`, with the curated constant `CURATED_SHELVES`).
External JSON documents are modelled as records of optional fields: `none`
stands for an absent or non-list (malformed) JSON field, and numeric
identifiers are modelled by their decimal strings.  The external search
endpoint is modelled as an oracle argument, and each entry point also reports
how many external requests it issued, so that "no external call" statements
can be made precise.
-/

/-- Lowercasing of a string, character by character; embeds Python `str.lower`
for the data handled by this program. -/
def strLower (s : String) : String := ⟨s.data.map Char.toLower⟩

/-- Whitespace trimming at both ends; embeds Python `str.strip()`. -/
def strTrim (s : String) : String :=
  ⟨((s.data.dropWhile Char.isWhitespace).reverse.dropWhile Char.isWhitespace).reverse⟩

/-- Substring test on character lists: does `n` occur contiguously inside the
second list. -/
def listSub (n : List Char) : List Char → Bool
  | [] => n.isEmpty
  | c :: cs => n.isPrefixOf (c :: cs) || listSub n cs

/-- Embeds the Python `in` operator on strings (substring containment). -/
def strIn (n h : String) : Bool := listSub n.data h.data

/-- Embeds Python `s or d` for strings: `d` when `s` is empty, else `s`. -/
def pyOr (s d : String) : String := if s = "" then d else s

/-- One Open Library search result (`doc`), as consumed by `_ol_best_match`.
`none` models an absent or malformed (non-list / non-int) JSON field; list
elements of `none` model JSON `null` entries. -/
structure OLDoc where
  title : Option String
  author_name : Option (List (Option String))
  cover_i : Option String
  isbn : Option (List (Option String))
  edition_key : Option (List (Option String))
  first_publish_year : Option Int
deriving Repr, DecidableEq

/-- The candidate title as the score routine normalises it:
`(doc.get("title") or "").strip().lower()`. -/
def dTitleNorm (doc : OLDoc) : String := strLower (strTrim (doc.title.getD ""))

/-- The candidate's first listed author, normalised:
`(authors[0] or "").strip().lower()` when `author_name` is a non-empty list,
`""` otherwise. -/
def firstAuthorNorm (doc : OLDoc) : String :=
  match doc.author_name with
  | some (x :: _) => strLower (strTrim (x.getD ""))
  | _ => ""

/-- Truthiness of `doc.get("cover_i")`: the candidate carries a cover
reference id. -/
def hasCoverRef (doc : OLDoc) : Bool :=
  match doc.cover_i with
  | some s => !(s == "")
  | none => false

/-- The check `isinstance(isbns, list) and isbns`: the candidate has at least
one listed ISBN. -/
def hasIsbnList (doc : OLDoc) : Bool :=
  match doc.isbn with
  | some (_ :: _) => true
  | _ => false

/-- The additive scoring heuristic `score` from `_ol_best_match`
(src/main.py lines 258-284).  `tLow` and `aLow` are the already
trimmed-and-lowercased query title and author. -/
def score (tLow aLow : String) (doc : OLDoc) : Nat :=
  (if dTitleNorm doc = tLow then 50
   else if tLow ≠ "" ∧ strIn tLow (dTitleNorm doc) = true then 25 else 0)
  + (if aLow ≠ "" ∧ firstAuthorNorm doc ≠ "" then
       (if firstAuthorNorm doc = aLow then 50
        else if strIn aLow (firstAuthorNorm doc) = true ∨
                strIn (firstAuthorNorm doc) aLow = true then 25 else 0)
     else 0)
  + (if hasCoverRef doc then 10 else 0)
  + (if hasIsbnList doc then 3 else 0)

/-- Python's `max(b :: l, key=f)`: left fold keeping the current best and
replacing it only on a strictly greater key, so the first of equally scored
elements wins. -/
def pyMaxBy (f : α → Nat) (b : α) : List α → α
  | [] => b
  | x :: xs => pyMaxBy f (if f x > f b then x else b) xs

/-- Extraction `str(l[0] or "").strip()` guarded by
`isinstance(l, list) and l`, shared by the olid and isbn fields. -/
def firstStr (o : Option (List (Option String))) : String :=
  match o with
  | some (x :: _) => strTrim (x.getD "")
  | _ => ""

/-- Extraction of `first_publish_year`: stringified when it is an integer,
empty otherwise. -/
def yearStr (o : Option Int) : String :=
  match o with
  | some n => toString n
  | none => ""

/-- Cover URL builder `_ol_cover_url` (src/main.py lines 209-227):
strict priority cover id, then ISBN, then edition id, else empty. -/
def olCoverUrl (cover_i isbn olid : String) : String :=
  if strTrim cover_i ≠ "" then
    "https://covers.openlibrary.org/b/id/" ++ strTrim cover_i ++ "-L.jpg"
  else if strTrim isbn ≠ "" then
    "https://covers.openlibrary.org/b/isbn/" ++ strTrim isbn ++ "-L.jpg"
  else if strTrim olid ≠ "" then
    "https://covers.openlibrary.org/b/olid/" ++ strTrim olid ++ "-L.jpg"
  else ""

/-- The result dictionary of `_ol_best_match`:
`{cover, cover_i, isbn, olid, year}`. -/
structure OLMeta where
  cover : String
  cover_i : String
  isbn : String
  olid : String
  year : String
deriving Repr, DecidableEq

/-- Outcome of the external search request: `fail` models any raised
transport error (timeout, connection error, non-JSON body), `ok` carries the
parsed `docs` field (`none` when absent or malformed). -/
inductive FetchResult where
  | fail : FetchResult
  | ok (docs : Option (List OLDoc)) : FetchResult
deriving Repr, DecidableEq

/-- Query string construction `q = t if not a else f"{t} {a}"` on the
trimmed title and author. -/
def buildQuery (t a : String) : String := if a = "" then t else t ++ " " ++ a

/-- Field extraction from the winning candidate
(src/main.py lines 288-306). -/
def bestMeta (w : OLDoc) : OLMeta :=
  { cover := olCoverUrl (strTrim (w.cover_i.getD "")) (firstStr w.isbn) (firstStr w.edition_key)
  , cover_i := strTrim (w.cover_i.getD "")
  , isbn := firstStr w.isbn
  , olid := firstStr w.edition_key
  , year := yearStr w.first_publish_year }

/-- Candidate-list part of `_ol_best_match`: `if not docs: return {}`, else
`best = max(docs, key=score)` followed by the field extraction. -/
def olBestMatchDocs (tLow aLow : String) : List OLDoc → Option OLMeta
  | [] => none
  | d :: ds => some (bestMeta (pyMaxBy (score tLow aLow) d ds))

/-- The Matcher `_ol_best_match` (src/main.py lines 230-306), with the
network modelled by the `fetch` oracle.  The second component counts the
external requests issued (0 or 1).  `none` models the empty dictionary
returned on every soft failure. -/
def olBestMatch (fetch : String → FetchResult) (title author : String) :
    Option OLMeta × Nat :=
  if strTrim title = "" then (none, 0)
  else
    match fetch (buildQuery (strTrim title) (strTrim author)) with
    | .fail => (none, 1)
    | .ok docsOpt =>
      (olBestMatchDocs (strLower (strTrim title)) (strLower (strTrim author))
        (docsOpt.getD []), 1)

/-- A persisted catalog row (the `Book` model fields the Seeder writes). -/
structure Book where
  title : String
  author : String
  genre : String
  year : String
  cover : String
  olid : String
  cover_i : String
  isbn : String
deriving Repr, DecidableEq

/-- One curated seed triple `(title, author, genre)`. -/
structure CuratedItem where
  title : String
  author : String
  genre : String
deriving Repr, DecidableEq

/-- The sentinel placeholder cover URL (src/main.py line 205). -/
def PLACEHOLDER_COVER : String := "https://placehold.co/400x600/EEE/AAA?text=No+Cover"

/-- The predicate of `Book.query.filter_by(title=t, author=a)`. -/
def samePair (t a : String) (b : Book) : Bool := b.title == t && b.author == a

/-- `Book.query.filter_by(title=t, author=a).first()` over the visible rows
(committed rows plus rows already queued in the session). -/
def findByTitleAuthor (store : List Book) (t a : String) : Option Book :=
  store.find? (samePair t a)

/-- Reading a field of the resolved metadata dictionary,
`meta.get(field) or ""` with `meta = _ol_best_match(...) or {}`. -/
def metaField (meta : Option OLMeta) (f : OLMeta → String) : String :=
  match meta with
  | some m => f m
  | none => ""

/-- The `Book(...)` row the Seeder constructs for one curated item
(src/main.py lines 624-635): resolved metadata where available, placeholder
cover when none could be resolved. -/
def mkSeedBook (title author genre : String) (meta : Option OLMeta) : Book :=
  { title := title
  , author := author
  , genre := genre
  , year := strTrim (metaField meta (·.year))
  , cover := pyOr (strTrim (metaField meta (·.cover))) PLACEHOLDER_COVER
  , olid := strTrim (metaField meta (·.olid))
  , cover_i := strTrim (metaField meta (·.cover_i))
  , isbn := strTrim (metaField meta (·.isbn)) }

/-- One iteration of the Seeder's inner loop (src/main.py lines 612-636).
The state is the list of visible rows together with the log of external
lookups issued so far; `look` is the Matcher oracle. -/
def seedStep (look : String → String → Option OLMeta)
    (acc : List Book × List (String × String)) (it : CuratedItem) :
    List Book × List (String × String) :=
  if strTrim it.title = "" ∨ strTrim it.author = "" then acc
  else if (findByTitleAuthor acc.1 (strTrim it.title) (strTrim it.author)).isSome then acc
  else
    (acc.1 ++ [mkSeedBook (strTrim it.title) (strTrim it.author)
                 (strTrim (pyOr it.genre "Other"))
                 (look (strTrim it.title) (strTrim it.author))],
     acc.2 ++ [(strTrim it.title, strTrim it.author)])

/-- The Seeder `_ensure_seeded_curated` (src/main.py lines 601-638): the
threshold is checked once, then every shelf and every item is processed in
order.  Returns the rows visible at commit time and the external lookups
issued. -/
def ensureSeededCurated (look : String → String → Option OLMeta)
    (shelves : List (List CuratedItem)) (minBooks : Nat) (store : List Book) :
    List Book × List (String × String) :=
  if store.length ≥ minBooks then (store, [])
  else shelves.foldl (fun acc items => items.foldl (seedStep look) acc) (store, [])

/-- One Seeder iteration in a model where the per-item work may raise
(`Except`): an `error` models an uncaught exception escaping the loop body. -/
def seedStepE (look : String → String → Except Unit (Option OLMeta))
    (acc : List Book × List (String × String)) (it : CuratedItem) :
    Except Unit (List Book × List (String × String)) :=
  if strTrim it.title = "" ∨ strTrim it.author = "" then .ok acc
  else if (findByTitleAuthor acc.1 (strTrim it.title) (strTrim it.author)).isSome then .ok acc
  else
    match look (strTrim it.title) (strTrim it.author) with
    | .error e => .error e
    | .ok meta =>
      .ok (acc.1 ++ [mkSeedBook (strTrim it.title) (strTrim it.author)
                       (strTrim (pyOr it.genre "Other")) meta],
           acc.2 ++ [(strTrim it.title, strTrim it.author)])

/-- Inner loop of the exception-aware Seeder: the first raised error aborts
the rest of the pass. -/
def foldSeedE (look : String → String → Except Unit (Option OLMeta)) :
    List CuratedItem → List Book × List (String × String) →
    Except Unit (List Book × List (String × String))
  | [], acc => .ok acc
  | it :: its, acc =>
    match seedStepE look acc it with
    | .error e => .error e
    | .ok acc' => foldSeedE look its acc'

/-- Outer loop of the exception-aware Seeder over the shelves. -/
def shelvesFoldE (look : String → String → Except Unit (Option OLMeta)) :
    List (List CuratedItem) → List Book × List (String × String) →
    Except Unit (List Book × List (String × String))
  | [], acc => .ok acc
  | items :: rest, acc =>
    match foldSeedE look items acc with
    | .error e => .error e
    | .ok acc' => shelvesFoldE look rest acc'

/-- The exception-aware Seeder pass: threshold check, the nested loops, and
then the single `db.session.commit()` (reached only when no step raised). -/
def ensureSeededCuratedE (look : String → String → Except Unit (Option OLMeta))
    (shelves : List (List CuratedItem)) (minBooks : Nat) (store : List Book) :
    Except Unit (List Book × List (String × String)) :=
  if store.length ≥ minBooks then .ok (store, [])
  else shelvesFoldE look shelves (store, [])

/-- The catalog rows reachable by later reads after the pass: the queued rows
become persistent only through the final `db.session.commit()`; an exception
mid-loop means the commit never runs and the catalog stays as it was. -/
def seededCommitted (look : String → String → Except Unit (Option OLMeta))
    (shelves : List (List CuratedItem)) (minBooks : Nat) (store : List Book) :
    List Book :=
  match ensureSeededCuratedE look shelves minBooks store with
  | .ok (cur, _) => cur
  | .error _ => store

/-- Title points, following the claim's words: 50 for an exact
case-insensitive title match, else 25 if the lowercased query title is a
substring of the lowercased candidate title; exact takes precedence, so the
two are mutually exclusive.  `t` is the trimmed query title; case-insensitive
comparison is comparison of the normalised strings. -/
def specTitlePoints (t : String) (doc : OLDoc) : Nat :=
  if dTitleNorm doc = strLower t then 50
  else if strIn (strLower t) (dTitleNorm doc) = true then 25 else 0

/-- Author points, following the claim's words: when an author was supplied
(trimmed `a` non-empty) and the candidate has at least one listed author
(non-blank first listed author; a blank or null first author is malformed
data and, per the spec, treated as absent), 50 for an exact case-insensitive
match of the first listed author, else 25 if either lowercased author string
is a substring of the other. -/
def specAuthorPoints (a : String) (doc : OLDoc) : Nat :=
  if strLower a ≠ "" ∧ firstAuthorNorm doc ≠ "" then
    (if firstAuthorNorm doc = strLower a then 50
     else if strIn (strLower a) (firstAuthorNorm doc) = true ∨
             strIn (firstAuthorNorm doc) (strLower a) = true then 25 else 0)
  else 0

/-- Cover points, following the claim's words: 10 if the candidate has a
cover reference id. -/
def specCoverPoints (doc : OLDoc) : Nat := if hasCoverRef doc then 10 else 0

/-- ISBN points, following the claim's words: 3 if the candidate has at
least one ISBN. -/
def specIsbnPoints (doc : OLDoc) : Nat := if hasIsbnList doc then 3 else 0

/-- No two rows of the catalog share their `(title, author)` pair: the
uniqueness invariant `uq_book_title_author`. -/
def distinctPairs (l : List Book) : Prop :=
  l.Pairwise (fun b b' => ¬ (b.title = b'.title ∧ b.author = b'.author))

/-- The curated seed constant `CURATED_SHELVES` (src/main.py lines 564-597),
shelves in dictionary insertion order: Classics, Cult favourites, Trending. -/
def CURATED_SHELVES : List (List CuratedItem) :=
  [ [ ⟨"Pride and Prejudice", "Jane Austen", "Classics"⟩
    , ⟨"Wuthering Heights", "Emily Brontë", "Classics"⟩
    , ⟨"Jane Eyre", "Charlotte Brontë", "Classics"⟩
    , ⟨"Great Expectations", "Charles Dickens", "Classics"⟩
    , ⟨"The Great Gatsby", "F. Scott Fitzgerald", "Classics"⟩
    , ⟨"Crime and Punishment", "Fyodor Dostoevsky", "Classics"⟩
    , ⟨"Frankenstein", "Mary Shelley", "Classics"⟩
    , ⟨"Dracula", "Bram Stoker", "Classics"⟩
    , ⟨"The Picture of Dorian Gray", "Oscar Wilde", "Classics"⟩
    , ⟨"1984", "George Orwell", "Classics"⟩
    , ⟨"Brave New World", "Aldous Huxley", "Classics"⟩ ]
  , [ ⟨"The Secret History", "Donna Tartt", "Literary"⟩
    , ⟨"Fight Club", "Chuck Palahniuk", "Literary"⟩
    , ⟨"American Psycho", "Bret Easton Ellis", "Literary"⟩
    , ⟨"The Handmaid\x27s Tale", "Margaret Atwood", "Dystopian"⟩
    , ⟨"The Bell Jar", "Sylvia Plath", "Literary"⟩
    , ⟨"The Road", "Cormac McCarthy", "Literary"⟩
    , ⟨"Gone Girl", "Gillian Flynn", "Mystery"⟩
    , ⟨"The Shining", "Stephen King", "Horror"⟩ ]
  , [ ⟨"Fourth Wing", "Rebecca Yarros", "Fantasy"⟩
    , ⟨"Iron Flame", "Rebecca Yarros", "Fantasy"⟩
    , ⟨"The Seven Husbands of Evelyn Hugo", "Taylor Jenkins Reid", "Romance"⟩
    , ⟨"The Song of Achilles", "Madeline Miller", "Fantasy"⟩
    , ⟨"It Ends with Us", "Colleen Hoover", "Romance"⟩
    , ⟨"The Silent Patient", "Alex Michaelides", "Mystery"⟩ ] ]

/-! ## Helper lemmas -/

theorem strLower_ne_empty {s : String} (h : s ≠ "") : strLower s ≠ "" := by
  cases s with
  | mk data =>
    cases data with
    | nil => exact absurd rfl h
    | cons c cs =>
      intro hc
      have h2 := congrArg String.data hc
      simp [strLower] at h2

theorem pyMaxBy_spec (f : α → Nat) (b : α) (l : List α) :
    pyMaxBy f b l ∈ b :: l ∧
    (∀ x ∈ b :: l, f x ≤ f (pyMaxBy f b l)) ∧
    ∃ l₁ l₂, b :: l = l₁ ++ pyMaxBy f b l :: l₂ ∧
      ∀ x ∈ l₁, f x < f (pyMaxBy f b l) := by
  induction l generalizing b with
  | nil =>
    refine ⟨List.mem_singleton_self b, ?_, [], [], rfl, by simp⟩
    intro x hx
    rcases List.mem_singleton.mp hx with rfl
    exact le_refl _
  | cons x xs ih =>
    simp only [pyMaxBy]
    by_cases hx : f b < f x
    · rw [if_pos hx]
      obtain ⟨hmem, hmax, l₁, l₂, hsplit, hlt⟩ := ih x
      refine ⟨List.mem_cons_of_mem b hmem, ?_, ?_⟩
      · intro y hy
        rcases List.mem_cons.mp hy with rfl | hy'
        · exact le_trans (le_of_lt hx) (hmax x (List.mem_cons_self x xs))
        · exact hmax y hy'
      · cases l₁ with
        | nil =>
          simp only [List.nil_append] at hsplit
          obtain ⟨hw, hl⟩ := List.cons.inj hsplit
          refine ⟨[b], l₂, ?_, ?_⟩
          · rw [List.singleton_append]
            exact congrArg (List.cons b) hsplit
          · intro y hy
            rcases List.mem_singleton.mp hy with rfl
            rw [← hw]
            exact hx
        | cons z l₁' =>
          simp only [List.cons_append] at hsplit
          obtain ⟨hz, hl⟩ := List.cons.inj hsplit
          refine ⟨b :: x :: l₁', l₂, ?_, ?_⟩
          · rw [List.cons_append, List.cons_append]
            exact congrArg (List.cons b) (congrArg (List.cons x) hl)
          · intro y hy
            have hxlt : f x < f (pyMaxBy f x xs) := by
              apply hlt
              rw [hz]
              exact List.mem_cons_self z l₁'
            rcases List.mem_cons.mp hy with rfl | hy'
            · exact lt_trans hx hxlt
            · rcases List.mem_cons.mp hy' with rfl | hy'' 
              · exact hxlt
              · exact hlt y (List.mem_cons_of_mem z hy'')
    · rw [if_neg hx]
      have hxb : f x ≤ f b := le_of_not_lt hx
      obtain ⟨hmem, hmax, l₁, l₂, hsplit, hlt⟩ := ih b
      refine ⟨?_, ?_, ?_⟩
      · rcases List.mem_cons.mp hmem with h' | h'
        · rw [h']; exact List.mem_cons_self b (x :: xs)
        · exact List.mem_cons_of_mem b (List.mem_cons_of_mem x h')
      · intro y hy
        rcases List.mem_cons.mp hy with rfl | hy'
        · exact hmax y (List.mem_cons_self y xs)
        · rcases List.mem_cons.mp hy' with rfl | hy''
          · exact le_trans hxb (hmax b (List.mem_cons_self b xs))
          · exact hmax y (List.mem_cons_of_mem b hy'')
      · cases l₁ with
        | nil =>
          simp only [List.nil_append] at hsplit
          obtain ⟨hw, hl⟩ := List.cons.inj hsplit
          refine ⟨[], x :: xs, ?_, by simp⟩
          rw [List.nil_append, ← hw]
        | cons z l₁' =>
          simp only [List.cons_append] at hsplit
          obtain ⟨hz, hl⟩ := List.cons.inj hsplit
          refine ⟨b :: x :: l₁', l₂, ?_, ?_⟩
          · rw [List.cons_append, List.cons_append]
            exact congrArg (List.cons b) (congrArg (List.cons x) hl)
          · intro y hy
            have hblt : f b < f (pyMaxBy f b xs) := by
              apply hlt
              rw [hz]
              exact List.mem_cons_self z l₁'
            rcases List.mem_cons.mp hy with rfl | hy'
            · exact hblt
            · rcases List.mem_cons.mp hy' with rfl | hy''
              · exact lt_of_le_of_lt hxb hblt
              · exact hlt y (List.mem_cons_of_mem z hy'')

theorem find?_isSome_of_mem {p : α → Bool} {l : List α} {x : α}
    (hx : x ∈ l) (hp : p x = true) : (l.find? p).isSome = true := by
  induction l with
  | nil => cases hx
  | cons y ys ih =>
    by_cases hy : p y = true
    · simp [List.find?_cons_of_pos _ hy]
    · rcases List.mem_cons.mp hx with rfl | h
      · exact absurd hp hy
      · rw [List.find?_cons_of_neg _ (by simpa using hy)]
        exact ih h

theorem seedStep_skip_blank (look : String → String → Option OLMeta)
    (acc : List Book × List (String × String)) (it : CuratedItem)
    (h : strTrim it.title = "" ∨ strTrim it.author = "") :
    seedStep look acc it = acc := by
  unfold seedStep
  rw [if_pos h]

theorem seedStep_skip_found (look : String → String → Option OLMeta)
    (acc : List Book × List (String × String)) (it : CuratedItem)
    (h : ∃ b ∈ acc.1, b.title = strTrim it.title ∧ b.author = strTrim it.author) :
    seedStep look acc it = acc := by
  unfold seedStep
  by_cases hb : strTrim it.title = "" ∨ strTrim it.author = ""
  · rw [if_pos hb]
  · rw [if_neg hb]
    obtain ⟨b, hmem, hbt, hba⟩ := h
    have hp : samePair (strTrim it.title) (strTrim it.author) b = true := by
      simp [samePair, hbt, hba]
    have hs : (findByTitleAuthor acc.1 (strTrim it.title) (strTrim it.author)).isSome = true := by
      simp only [findByTitleAuthor]
      exact find?_isSome_of_mem hmem hp
    rw [if_pos hs]

theorem seedStep_insert (look : String → String → Option OLMeta)
    (acc : List Book × List (String × String)) (it : CuratedItem)
    (h1 : ¬ (strTrim it.title = "" ∨ strTrim it.author = ""))
    (h2 : findByTitleAuthor acc.1 (strTrim it.title) (strTrim it.author) = none) :
    seedStep look acc it =
      (acc.1 ++ [mkSeedBook (strTrim it.title) (strTrim it.author)
          (strTrim (pyOr it.genre "Other")) (look (strTrim it.title) (strTrim it.author))],
       acc.2 ++ [(strTrim it.title, strTrim it.author)]) := by
  unfold seedStep
  rw [if_neg h1, if_neg (by simp [h2])]

theorem mem_seedStep (look : String → String → Option OLMeta)
    (acc : List Book × List (String × String)) (it : CuratedItem)
    {b : Book} (hb : b ∈ acc.1) : b ∈ (seedStep look acc it).1 := by
  unfold seedStep
  by_cases hc1 : strTrim it.title = "" ∨ strTrim it.author = ""
  · rw [if_pos hc1]; exact hb
  · rw [if_neg hc1]
    by_cases hc2 : (findByTitleAuthor acc.1 (strTrim it.title) (strTrim it.author)).isSome = true
    · rw [if_pos hc2]; exact hb
    · rw [if_neg hc2]; exact List.mem_append_left _ hb

theorem mem_foldSeed (look : String → String → Option OLMeta)
    (items : List CuratedItem) (acc : List Book × List (String × String))
    {b : Book} (hb : b ∈ acc.1) : b ∈ (items.foldl (seedStep look) acc).1 := by
  induction items generalizing acc with
  | nil => exact hb
  | cons it its ih => exact ih _ (mem_seedStep look acc it hb)

theorem pair_after_seedStep (look : String → String → Option OLMeta)
    (acc : List Book × List (String × String)) (it : CuratedItem)
    (h1 : strTrim it.title ≠ "") (h2 : strTrim it.author ≠ "") :
    ∃ b ∈ (seedStep look acc it).1,
      b.title = strTrim it.title ∧ b.author = strTrim it.author := by
  unfold seedStep
  rw [if_neg (by tauto : ¬ (strTrim it.title = "" ∨ strTrim it.author = ""))]
  by_cases hc2 : (findByTitleAuthor acc.1 (strTrim it.title) (strTrim it.author)).isSome = true
  · rw [if_pos hc2]
    obtain ⟨b, hfind⟩ := Option.isSome_iff_exists.mp hc2
    simp only [findByTitleAuthor] at hfind
    have hp := List.find?_some hfind
    simp only [samePair, Bool.and_eq_true, beq_iff_eq] at hp
    exact ⟨b, List.mem_of_find?_eq_some hfind, hp.1, hp.2⟩
  · rw [if_neg hc2]
    refine ⟨mkSeedBook (strTrim it.title) (strTrim it.author)
        (strTrim (pyOr it.genre "Other")) (look (strTrim it.title) (strTrim it.author)),
      List.mem_append_right _ (List.mem_singleton_self _), rfl, rfl⟩

theorem shelves_foldl_eq_flatten {β : Type} (f : β → CuratedItem → β)
    (shelves : List (List CuratedItem)) (acc : β) :
    shelves.foldl (fun a items => items.foldl f a) acc = (shelves.flatten).foldl f acc := by
  induction shelves generalizing acc with
  | nil => rfl
  | cons items rest ih =>
    simp only [List.flatten_cons, List.foldl_cons]
    rw [List.foldl_append f acc items rest.flatten, ih]

theorem pair_in_foldSeed (look : String → String → Option OLMeta)
    (items : List CuratedItem) (acc : List Book × List (String × String))
    (it : CuratedItem) (hit : it ∈ items)
    (h1 : strTrim it.title ≠ "") (h2 : strTrim it.author ≠ "") :
    ∃ b ∈ (items.foldl (seedStep look) acc).1,
      b.title = strTrim it.title ∧ b.author = strTrim it.author := by
  revert hit
  induction items generalizing acc with
  | nil => intro hit; cases hit
  | cons x xs ih =>
    intro hit
    rw [List.foldl_cons]
    rcases List.mem_cons.mp hit with rfl | hmem
    · obtain ⟨b, hb, hbt, hba⟩ := pair_after_seedStep look acc it h1 h2
      exact ⟨b, mem_foldSeed look xs _ hb, hbt, hba⟩
    · exact ih _ hmem

theorem foldSeed_skip_all (look : String → String → Option OLMeta)
    (items : List CuratedItem) (acc : List Book × List (String × String))
    (h : ∀ it ∈ items, strTrim it.title ≠ "" → strTrim it.author ≠ "" →
         ∃ b ∈ acc.1, b.title = strTrim it.title ∧ b.author = strTrim it.author) :
    items.foldl (seedStep look) acc = acc := by
  induction items with
  | nil => rfl
  | cons it its ih =>
    have hstep : seedStep look acc it = acc := by
      by_cases hb : strTrim it.title = "" ∨ strTrim it.author = ""
      · exact seedStep_skip_blank look acc it hb
      · push_neg at hb
        exact seedStep_skip_found look acc it (h it (List.mem_cons_self it its) hb.1 hb.2)
    rw [List.foldl_cons, hstep]
    exact ih (fun x hx => h x (List.mem_cons_of_mem _ hx))

theorem seedStep_distinct (look : String → String → Option OLMeta)
    (acc : List Book × List (String × String)) (it : CuratedItem)
    (h : distinctPairs acc.1) : distinctPairs (seedStep look acc it).1 := by
  unfold seedStep
  by_cases hc1 : strTrim it.title = "" ∨ strTrim it.author = ""
  · rw [if_pos hc1]; exact h
  · rw [if_neg hc1]
    by_cases hc2 : (findByTitleAuthor acc.1 (strTrim it.title) (strTrim it.author)).isSome = true
    · rw [if_pos hc2]; exact h
    · rw [if_neg hc2]
      have hnone : (findByTitleAuthor acc.1 (strTrim it.title) (strTrim it.author)) = none :=
        Option.not_isSome_iff_eq_none.mp (by simpa using hc2)
      simp only [findByTitleAuthor] at hnone
      have hall := List.find?_eq_none.mp hnone
      unfold distinctPairs at h ⊢
      rw [List.pairwise_append]
      refine ⟨h, List.pairwise_singleton _ _, ?_⟩
      intro a ha b hb hcontra
      rcases List.mem_singleton.mp hb with rfl
      have := hall a ha
      apply this
      simp only [samePair, Bool.and_eq_true, beq_iff_eq]
      exact ⟨hcontra.1, hcontra.2⟩

theorem foldSeed_distinct (look : String → String → Option OLMeta)
    (items : List CuratedItem) (acc : List Book × List (String × String))
    (h : distinctPairs acc.1) : distinctPairs ((items.foldl (seedStep look) acc)).1 := by
  induction items generalizing acc with
  | nil => exact h
  | cons it its ih => exact ih _ (seedStep_distinct look acc it h)

theorem seedStepE_extends (look : String → String → Except Unit (Option OLMeta))
    (acc : List Book × List (String × String)) (it : CuratedItem)
    (acc' : List Book × List (String × String))
    (h : seedStepE look acc it = .ok acc') : ∃ t, acc'.1 = acc.1 ++ t := by
  unfold seedStepE at h
  by_cases hc1 : strTrim it.title = "" ∨ strTrim it.author = ""
  · rw [if_pos hc1] at h
    cases h
    exact ⟨[], by simp⟩
  · rw [if_neg hc1] at h
    by_cases hc2 : (findByTitleAuthor acc.1 (strTrim it.title) (strTrim it.author)).isSome = true
    · rw [if_pos hc2] at h
      cases h
      exact ⟨[], by simp⟩
    · rw [if_neg hc2] at h
      cases hlk : look (strTrim it.title) (strTrim it.author) with
      | error e => rw [hlk] at h; cases h
      | ok m =>
        rw [hlk] at h
        cases h
        exact ⟨[mkSeedBook (strTrim it.title) (strTrim it.author)
          (strTrim (pyOr it.genre "Other")) m], rfl⟩

theorem foldSeedE_extends (look : String → String → Except Unit (Option OLMeta))
    (items : List CuratedItem) (acc acc' : List Book × List (String × String))
    (h : foldSeedE look items acc = .ok acc') : ∃ t, acc'.1 = acc.1 ++ t := by
  induction items generalizing acc with
  | nil =>
    unfold foldSeedE at h
    cases h
    exact ⟨[], by simp⟩
  | cons it its ih =>
    unfold foldSeedE at h
    cases hstep : seedStepE look acc it with
    | error e => rw [hstep] at h; cases h
    | ok acc₁ =>
      rw [hstep] at h
      obtain ⟨t₁, ht₁⟩ := seedStepE_extends look acc it acc₁ hstep
      obtain ⟨t₂, ht₂⟩ := ih acc₁ h
      exact ⟨t₁ ++ t₂, by rw [ht₂, ht₁, List.append_assoc]⟩

theorem shelvesFoldE_extends (look : String → String → Except Unit (Option OLMeta))
    (shelves : List (List CuratedItem)) (acc acc' : List Book × List (String × String))
    (h : shelvesFoldE look shelves acc = .ok acc') : ∃ t, acc'.1 = acc.1 ++ t := by
  induction shelves generalizing acc with
  | nil =>
    unfold shelvesFoldE at h
    cases h
    exact ⟨[], by simp⟩
  | cons items rest ih =>
    unfold shelvesFoldE at h
    cases hstep : foldSeedE look items acc with
    | error e => rw [hstep] at h; cases h
    | ok acc₁ =>
      rw [hstep] at h
      obtain ⟨t₁, ht₁⟩ := foldSeedE_extends look items acc acc₁ hstep
      obtain ⟨t₂, ht₂⟩ := ih acc₁ h
      exact ⟨t₁ ++ t₂, by rw [ht₂, ht₁, List.append_assoc]⟩

theorem ensureSeeded_saturated (look : String → String → Option OLMeta)
    (shelves : List (List CuratedItem)) (minBooks : Nat) (store : List Book)
    (h : ∀ it ∈ shelves.flatten, strTrim it.title ≠ "" → strTrim it.author ≠ "" →
         ∃ b ∈ store, b.title = strTrim it.title ∧ b.author = strTrim it.author) :
    ensureSeededCurated look shelves minBooks store = (store, []) := by
  unfold ensureSeededCurated
  by_cases hlen : store.length ≥ minBooks
  · rw [if_pos hlen]
  · rw [if_neg hlen, shelves_foldl_eq_flatten]
    exact foldSeed_skip_all look _ (store, []) h

/-! ## Claims -/

/-- C1: for every query with non-blank title and every candidate record, the
Matcher's score is exactly the sum of the four additive contributions the
claim lists — title points (50 exact case-insensitive, else 25 substring,
mutually exclusive with exact taking precedence), author points (50 exact
first-author match, else 25 substring either direction, only when an author
was supplied and the candidate has a non-blank first listed author), 10 for
a cover reference id, 3 for at least one ISBN — and nothing else
contributes. -/
theorem c1_score_additive (title author : String) (doc : OLDoc)
    (h : strTrim title ≠ "") :
    score (strLower (strTrim title)) (strLower (strTrim author)) doc =
      specTitlePoints (strTrim title) doc + specAuthorPoints (strTrim author) doc
        + specCoverPoints doc + specIsbnPoints doc := by
  have htl : strLower (strTrim title) ≠ "" := strLower_ne_empty h
  unfold score specTitlePoints specAuthorPoints specCoverPoints specIsbnPoints
  simp [htl]

/-- C1 witness: the decomposition evaluated at a concrete query and
candidate. -/
theorem c1_witness :
    strTrim " 1984 " ≠ "" ∧
    score (strLower (strTrim " 1984 ")) (strLower (strTrim "George Orwell"))
        ⟨some "1984", some [some "George Orwell"], some "7", some [some "9780x"],
         some [some "OL1M"], some 1949⟩ =
      specTitlePoints (strTrim " 1984 ")
          ⟨some "1984", some [some "George Orwell"], some "7", some [some "9780x"],
           some [some "OL1M"], some 1949⟩
        + specAuthorPoints (strTrim "George Orwell")
            ⟨some "1984", some [some "George Orwell"], some "7", some [some "9780x"],
             some [some "OL1M"], some 1949⟩
        + specCoverPoints
            ⟨some "1984", some [some "George Orwell"], some "7", some [some "9780x"],
             some [some "OL1M"], some 1949⟩
        + specIsbnPoints
            ⟨some "1984", some [some "George Orwell"], some "7", some [some "9780x"],
             some [some "OL1M"], some 1949⟩ :=
  ⟨by decide, c1_score_additive " 1984 " "George Orwell"
      ⟨some "1984", some [some "George Orwell"], some "7", some [some "9780x"],
       some [some "OL1M"], some 1949⟩ (by decide)⟩

/-- C9: for every query and candidate record the score lies between 0 and
113, and equals 113 exactly when the title matches exactly
(case-insensitively), the supplied author exactly matches the candidate's
first listed author (case-insensitively), the candidate has a cover
reference id, and the candidate has at least one ISBN. -/
theorem c9_score_bounds (tLow aLow : String) (doc : OLDoc) :
    score tLow aLow doc ≤ 113 ∧
    (score tLow aLow doc = 113 ↔
      (dTitleNorm doc = tLow ∧ (aLow ≠ "" ∧ firstAuthorNorm doc = aLow) ∧
       hasCoverRef doc = true ∧ hasIsbnList doc = true)) := by
  have h1 :
      (if dTitleNorm doc = tLow then (50 : Nat)
       else if tLow ≠ "" ∧ strIn tLow (dTitleNorm doc) = true then 25 else 0) ≤ 50 ∧
      ((if dTitleNorm doc = tLow then (50 : Nat)
        else if tLow ≠ "" ∧ strIn tLow (dTitleNorm doc) = true then 25 else 0) = 50 ↔
        dTitleNorm doc = tLow) := by
    by_cases h : dTitleNorm doc = tLow
    · simp [h]
    · rw [if_neg h]
      refine ⟨by split <;> omega, ?_⟩
      constructor
      · intro heq
        exfalso
        revert heq
        split <;> omega
      · intro hcond
        exact absurd hcond h
  have h2 :
      (if aLow ≠ "" ∧ firstAuthorNorm doc ≠ "" then
         (if firstAuthorNorm doc = aLow then (50 : Nat)
          else if strIn aLow (firstAuthorNorm doc) = true ∨
                  strIn (firstAuthorNorm doc) aLow = true then 25 else 0)
       else 0) ≤ 50 ∧
      ((if aLow ≠ "" ∧ firstAuthorNorm doc ≠ "" then
          (if firstAuthorNorm doc = aLow then (50 : Nat)
           else if strIn aLow (firstAuthorNorm doc) = true ∨
                   strIn (firstAuthorNorm doc) aLow = true then 25 else 0)
        else 0) = 50 ↔ (aLow ≠ "" ∧ firstAuthorNorm doc = aLow)) := by
    by_cases h : aLow ≠ "" ∧ firstAuthorNorm doc ≠ ""
    · rw [if_pos h]
      by_cases he : firstAuthorNorm doc = aLow
      · simp [he, h.1]
      · rw [if_neg he]
        refine ⟨by split <;> omega, ?_⟩
        constructor
        · intro heq
          exfalso
          revert heq
          split <;> omega
        · rintro ⟨-, hfa⟩
          exact absurd hfa he
    · rw [if_neg h]
      refine ⟨by omega, ?_⟩
      constructor
      · intro heq
        omega
      · rintro ⟨ha, hfa⟩
        exact absurd ⟨ha, by rw [hfa]; exact ha⟩ h
  have h3 : (if hasCoverRef doc then (10 : Nat) else 0) ≤ 10 ∧
      ((if hasCoverRef doc then (10 : Nat) else 0) = 10 ↔ hasCoverRef doc = true) := by
    cases hcv : hasCoverRef doc <;> simp [hcv]
  have h4 : (if hasIsbnList doc then (3 : Nat) else 0) ≤ 3 ∧
      ((if hasIsbnList doc then (3 : Nat) else 0) = 3 ↔ hasIsbnList doc = true) := by
    cases hiv : hasIsbnList doc <;> simp [hiv]
  obtain ⟨hb1, he1⟩ := h1
  obtain ⟨hb2, he2⟩ := h2
  obtain ⟨hb3, he3⟩ := h3
  obtain ⟨hb4, he4⟩ := h4
  unfold score
  constructor
  · omega
  · constructor
    · intro hsum
      have hc : _ ∧ _ ∧ _ ∧ _ := ⟨he1.mp (by omega), he2.mp (by omega),
        he3.mp (by omega), he4.mp (by omega)⟩
      exact hc
    · rintro ⟨hc1, hc2, hc3, hc4⟩
      rw [he1.mpr hc1, he2.mpr hc2, he3.mpr hc3, he4.mpr hc4]

/-- C3: the built cover URL follows strict priority on the trimmed inputs:
cover-reference-based URL, else ISBN-based URL, else edition-id-based URL,
else the empty string. -/
theorem c3_cover_priority (cover_i isbn olid : String) :
    (strTrim cover_i ≠ "" →
      olCoverUrl cover_i isbn olid =
        "https://covers.openlibrary.org/b/id/" ++ strTrim cover_i ++ "-L.jpg") ∧
    (strTrim cover_i = "" → strTrim isbn ≠ "" →
      olCoverUrl cover_i isbn olid =
        "https://covers.openlibrary.org/b/isbn/" ++ strTrim isbn ++ "-L.jpg") ∧
    (strTrim cover_i = "" → strTrim isbn = "" → strTrim olid ≠ "" →
      olCoverUrl cover_i isbn olid =
        "https://covers.openlibrary.org/b/olid/" ++ strTrim olid ++ "-L.jpg") ∧
    (strTrim cover_i = "" → strTrim isbn = "" → strTrim olid = "" →
      olCoverUrl cover_i isbn olid = "") := by
  refine ⟨?_, ?_, ?_, ?_⟩
  · intro h1
    simp [olCoverUrl, h1]
  · intro h1 h2
    simp [olCoverUrl, h1, h2]
  · intro h1 h2 h3
    simp [olCoverUrl, h1, h2, h3]
  · intro h1 h2 h3
    simp [olCoverUrl, h1, h2, h3]

/-- C3 witness: with a cover id, ISBN and edition id all present, the
cover-id-based template wins (the spec's own example). -/
theorem c3_witness :
    strTrim "123" ≠ "" ∧
    olCoverUrl "123" "9780141182636" "OL1M" =
      "https://covers.openlibrary.org/b/id/" ++ strTrim "123" ++ "-L.jpg" :=
  ⟨by decide, (c3_cover_priority "123" "9780141182636" "OL1M").1 (by decide)⟩

/-- C4: the Matcher returns an empty result in exactly the soft-failure
cases — blank title (with zero external calls), transport failure, or an
empty candidate list — and otherwise issues exactly one external call. -/
theorem c4_soft_failures (fetch : String → FetchResult) (title author : String) :
    (strTrim title = "" → olBestMatch fetch title author = (none, 0)) ∧
    (strTrim title ≠ "" → (olBestMatch fetch title author).2 = 1) ∧
    (strTrim title ≠ "" →
      fetch (buildQuery (strTrim title) (strTrim author)) = .fail →
      (olBestMatch fetch title author).1 = none) ∧
    (∀ docsOpt, strTrim title ≠ "" →
      fetch (buildQuery (strTrim title) (strTrim author)) = .ok docsOpt →
      ((olBestMatch fetch title author).1 = none ↔ docsOpt.getD [] = [])) := by
  refine ⟨?_, ?_, ?_, ?_⟩
  · intro h
    unfold olBestMatch
    rw [if_pos h]
  · intro h
    unfold olBestMatch
    rw [if_neg h]
    cases hf : fetch (buildQuery (strTrim title) (strTrim author)) with
    | fail => rfl
    | ok docsOpt => rfl
  · intro h hf
    unfold olBestMatch
    rw [if_neg h, hf]
  · intro docsOpt h hf
    unfold olBestMatch
    rw [if_neg h, hf]
    change olBestMatchDocs _ _ (docsOpt.getD []) = none ↔ _
    cases hd : docsOpt.getD [] with
    | nil => simp [olBestMatchDocs]
    | cons d ds => simp [olBestMatchDocs]

/-- C4 witness: a blank title yields the empty result with zero external
calls, for a concrete oracle. -/
theorem c4_witness :
    strTrim "   " = "" ∧
    olBestMatch (fun _ => FetchResult.fail) "   " "x" = (none, 0) :=
  ⟨by decide, (c4_soft_failures (fun _ => FetchResult.fail) "   " "x").1 (by decide)⟩

/-- C2: on a non-empty candidate list the Matcher picks a candidate whose
score is maximal, with every earlier candidate scoring strictly less (the
stable max: ties go to the first-encountered), and extracts from it the
trimmed cover reference id, the first ISBN, the first edition id, and the
stringified first-publish-year, each empty when absent or malformed. -/
theorem c2_stable_max (fetch : String → FetchResult) (title author : String)
    (docsOpt : Option (List OLDoc)) (d : OLDoc) (ds : List OLDoc)
    (ht : strTrim title ≠ "")
    (hf : fetch (buildQuery (strTrim title) (strTrim author)) = .ok docsOpt)
    (hd : docsOpt.getD [] = d :: ds) :
    ∃ w : OLDoc,
      (olBestMatch fetch title author).1 = some
        { cover := olCoverUrl (strTrim (w.cover_i.getD "")) (firstStr w.isbn)
            (firstStr w.edition_key)
        , cover_i := strTrim (w.cover_i.getD "")
        , isbn := firstStr w.isbn
        , olid := firstStr w.edition_key
        , year := yearStr w.first_publish_year } ∧
      w ∈ d :: ds ∧
      (∀ x ∈ d :: ds,
        score (strLower (strTrim title)) (strLower (strTrim author)) x ≤
          score (strLower (strTrim title)) (strLower (strTrim author)) w) ∧
      ∃ l₁ l₂, d :: ds = l₁ ++ w :: l₂ ∧
        ∀ x ∈ l₁,
          score (strLower (strTrim title)) (strLower (strTrim author)) x <
            score (strLower (strTrim title)) (strLower (strTrim author)) w := by
  refine ⟨pyMaxBy (score (strLower (strTrim title)) (strLower (strTrim author))) d ds,
    ?_, ?_, ?_, ?_⟩
  · unfold olBestMatch
    rw [if_neg ht, hf]
    change olBestMatchDocs _ _ (docsOpt.getD []) = _
    rw [hd]
    rfl
  · exact (pyMaxBy_spec _ d ds).1
  · exact (pyMaxBy_spec _ d ds).2.1
  · exact (pyMaxBy_spec _ d ds).2.2

/-- C2 witness: the stable-max selection and extraction at a concrete
two-candidate response in which the second candidate scores strictly
higher. -/
theorem c2_witness :
    strTrim "1984" ≠ "" ∧
    (∃ w : OLDoc,
      (olBestMatch
          (fun _ => FetchResult.ok (some
            [⟨some "Other", none, none, none, none, none⟩,
             ⟨some "1984", none, some "7", none, none, none⟩]))
          "1984" "").1 = some
        { cover := olCoverUrl (strTrim (w.cover_i.getD "")) (firstStr w.isbn)
            (firstStr w.edition_key)
        , cover_i := strTrim (w.cover_i.getD "")
        , isbn := firstStr w.isbn
        , olid := firstStr w.edition_key
        , year := yearStr w.first_publish_year } ∧
      w ∈ [(⟨some "Other", none, none, none, none, none⟩ : OLDoc),
           ⟨some "1984", none, some "7", none, none, none⟩] ∧
      (∀ x ∈ [(⟨some "Other", none, none, none, none, none⟩ : OLDoc),
              ⟨some "1984", none, some "7", none, none, none⟩],
        score (strLower (strTrim "1984")) (strLower (strTrim "")) x ≤
          score (strLower (strTrim "1984")) (strLower (strTrim "")) w) ∧
      ∃ l₁ l₂,
        [(⟨some "Other", none, none, none, none, none⟩ : OLDoc),
         ⟨some "1984", none, some "7", none, none, none⟩] = l₁ ++ w :: l₂ ∧
        ∀ x ∈ l₁,
          score (strLower (strTrim "1984")) (strLower (strTrim "")) x <
            score (strLower (strTrim "1984")) (strLower (strTrim "")) w) :=
  ⟨by decide,
   c2_stable_max
     (fun _ => FetchResult.ok (some
       [⟨some "Other", none, none, none, none, none⟩,
        ⟨some "1984", none, some "7", none, none, none⟩]))
     "1984" ""
     (some [⟨some "Other", none, none, none, none, none⟩,
            ⟨some "1984", none, some "7", none, none, none⟩])
     ⟨some "Other", none, none, none, none, none⟩
     [⟨some "1984", none, some "7", none, none, none⟩]
     (by decide) rfl rfl⟩

/-- C5: the Seeder is idempotent.  Four parts: (1) when the starting catalog
size meets the minimum the pass is a no-op issuing zero external calls and
inserting nothing; (2) a curated item whose (title, author) exactly matches
an existing entry (case-sensitively) is skipped with no external call;
(3) a second run over the same curated list and store changes nothing and
issues no calls; (4) distinctness of (title, author) pairs is preserved, so
no duplicate entries are ever produced. -/
theorem c5_seeder_idempotent :
    (∀ (look : String → String → Option OLMeta) shelves minBooks store,
      store.length ≥ minBooks →
      ensureSeededCurated look shelves minBooks store = (store, [])) ∧
    (∀ (look : String → String → Option OLMeta) (it : CuratedItem),
      it ∈ CURATED_SHELVES.flatten →
      ∀ (cur : List Book) (calls : List (String × String)),
        (∃ b ∈ cur, b.title = it.title ∧ b.author = it.author) →
        seedStep look (cur, calls) it = (cur, calls)) ∧
    (∀ (look : String → String → Option OLMeta) shelves minBooks store,
      ensureSeededCurated look shelves minBooks
          (ensureSeededCurated look shelves minBooks store).1 =
        ((ensureSeededCurated look shelves minBooks store).1, [])) ∧
    (∀ (look : String → String → Option OLMeta) shelves minBooks store,
      distinctPairs store →
      distinctPairs (ensureSeededCurated look shelves minBooks store).1) := by
  refine ⟨?_, ?_, ?_, ?_⟩
  · intro look shelves minBooks store h
    unfold ensureSeededCurated
    rw [if_pos h]
  · intro look it hit cur calls h
    have hall : ∀ x ∈ CURATED_SHELVES.flatten,
        strTrim x.title = x.title ∧ strTrim x.author = x.author := by decide
    have htrim := hall it hit
    apply seedStep_skip_found
    obtain ⟨b, hb, hb1, hb2⟩ := h
    exact ⟨b, hb, by rw [htrim.1]; exact hb1, by rw [htrim.2]; exact hb2⟩
  · intro look shelves minBooks store
    by_cases hlen : store.length ≥ minBooks
    · have h1 : ensureSeededCurated look shelves minBooks store = (store, []) := by
        unfold ensureSeededCurated
        rw [if_pos hlen]
      rw [h1]
      exact h1
    · have hform : ensureSeededCurated look shelves minBooks store =
          (shelves.flatten).foldl (seedStep look) (store, []) := by
        unfold ensureSeededCurated
        rw [if_neg hlen, shelves_foldl_eq_flatten]
      apply ensureSeeded_saturated
      intro it hit h1' h2'
      rw [hform]
      exact pair_in_foldSeed look shelves.flatten (store, []) it hit h1' h2'
  · intro look shelves minBooks store h
    unfold ensureSeededCurated
    by_cases hlen : store.length ≥ minBooks
    · rw [if_pos hlen]
      exact h
    · rw [if_neg hlen, shelves_foldl_eq_flatten]
      exact foldSeed_distinct look _ (store, []) h

/-- C5 witness: the curated item for "1984" is skipped, with no external
call, when an identically titled and authored row already exists. -/
theorem c5_witness :
    (⟨"1984", "George Orwell", "Classics"⟩ : CuratedItem) ∈ CURATED_SHELVES.flatten ∧
    (∃ b ∈ [({ title := "1984", author := "George Orwell", genre := "Dystopian",
               year := "", cover := "c", olid := "", cover_i := "", isbn := "" } : Book)],
       b.title = (⟨"1984", "George Orwell", "Classics"⟩ : CuratedItem).title ∧
       b.author = (⟨"1984", "George Orwell", "Classics"⟩ : CuratedItem).author) ∧
    seedStep (fun _ _ => none)
        ([{ title := "1984", author := "George Orwell", genre := "Dystopian",
            year := "", cover := "c", olid := "", cover_i := "", isbn := "" }], [])
        ⟨"1984", "George Orwell", "Classics"⟩ =
      ([{ title := "1984", author := "George Orwell", genre := "Dystopian",
          year := "", cover := "c", olid := "", cover_i := "", isbn := "" }], []) :=
  ⟨by decide, by decide,
   c5_seeder_idempotent.2.1 (fun _ _ => none) ⟨"1984", "George Orwell", "Classics"⟩
     (by decide)
     [{ title := "1984", author := "George Orwell", genre := "Dystopian",
        year := "", cover := "c", olid := "", cover_i := "", isbn := "" }] []
     (by decide)⟩

/-- C6: all rows queued during a seeding pass are persisted together by the
single commit at the end of the pass — on success the committed catalog is
the starting store with the queued rows appended as one batch, and if any
step raises mid-loop the commit is never reached and the catalog reachable
by later reads is exactly the starting store. -/
theorem c6_batch_commit (look : String → String → Except Unit (Option OLMeta))
    (shelves : List (List CuratedItem)) (minBooks : Nat) (store : List Book) :
    (∀ e, ensureSeededCuratedE look shelves minBooks store = .error e →
      seededCommitted look shelves minBooks store = store) ∧
    (∀ cur calls, ensureSeededCuratedE look shelves minBooks store = .ok (cur, calls) →
      seededCommitted look shelves minBooks store = cur ∧
      ∃ queued, cur = store ++ queued) := by
  constructor
  · intro e h
    unfold seededCommitted
    rw [h]
  · intro cur calls h
    constructor
    · unfold seededCommitted
      rw [h]
    · unfold ensureSeededCuratedE at h
      by_cases hlen : store.length ≥ minBooks
      · rw [if_pos hlen] at h
        simp only [Except.ok.injEq, Prod.mk.injEq] at h
        obtain ⟨h1, -⟩ := h
        exact ⟨[], by rw [← h1]; simp⟩
      · rw [if_neg hlen] at h
        obtain ⟨t, ht⟩ := shelvesFoldE_extends look shelves (store, []) (cur, calls) h
        exact ⟨t, ht⟩

/-- C6 witness: a pass whose second lookup raises persists none of the rows
queued in that pass (here the first item had already queued a row). -/
theorem c6_witness :
    ensureSeededCuratedE (fun t _ => if t = "A" then .ok none else .error ())
        [[⟨"A", "A2", "G"⟩, ⟨"B", "B2", "G"⟩]] 5 [] = .error () ∧
    seededCommitted (fun t _ => if t = "A" then .ok none else .error ())
        [[⟨"A", "A2", "G"⟩, ⟨"B", "B2", "G"⟩]] 5 [] = [] :=
  ⟨rfl,
   (c6_batch_commit (fun t _ => if t = "A" then .ok none else .error ())
     [[⟨"A", "A2", "G"⟩, ⟨"B", "B2", "G"⟩]] 5 []).1 () rfl⟩

/-- C7 counterexample: with an empty store and `minimum_total = 1`, the
catalog size reaches the threshold after the first curated item, yet the
Seeder still issues an external lookup for the second item and inserts it —
so it does not stop early once the minimum is reached mid-pass. -/
theorem c7_counterexample :
    ([] : List Book).length < 1 ∧
    ((ensureSeededCurated (fun _ _ => none) [[⟨"A", "B", "G"⟩]] 1 []).1).length = 1 ∧
    (ensureSeededCurated (fun _ _ => none) [[⟨"A", "B", "G"⟩, ⟨"C", "D", "G"⟩]] 1 []).2 =
      [("A", "B"), ("C", "D")] ∧
    ((ensureSeededCurated (fun _ _ => none) [[⟨"A", "B", "G"⟩, ⟨"C", "D", "G"⟩]] 1 []).1).length
      = 2 := by decide

/-- C7 (amended): once a pass has been triggered (starting count below the
threshold) the Seeder consults the threshold no further: the entire curated
list is processed, and the outcome is the same for every threshold value
above the starting count. -/
theorem c7_no_midloop_threshold (look : String → String → Option OLMeta)
    (shelves : List (List CuratedItem)) (m₁ m₂ : Nat) (store : List Book)
    (h₁ : store.length < m₁) (h₂ : store.length < m₂) :
    ensureSeededCurated look shelves m₁ store =
      ensureSeededCurated look shelves m₂ store := by
  unfold ensureSeededCurated
  rw [if_neg (by omega), if_neg (by omega)]

/-- C7 witness: thresholds 1 and 1000 trigger identical passes on an empty
store. -/
theorem c7_witness :
    ([] : List Book).length < 1 ∧ ([] : List Book).length < 1000 ∧
    ensureSeededCurated (fun _ _ => none) [[⟨"A", "B", "G"⟩]] 1 [] =
      ensureSeededCurated (fun _ _ => none) [[⟨"A", "B", "G"⟩]] 1000 [] :=
  ⟨by decide, by decide,
   c7_no_midloop_threshold (fun _ _ => none) [[⟨"A", "B", "G"⟩]] 1 1000 []
     (by decide) (by decide)⟩

/-- C8: every curated item the Seeder actually inserts is stored with the
resolved metadata where available, the placeholder cover whenever no cover
URL was resolved (so the stored cover is never empty), and the item's
declared genre with "Other" as the default when the genre is blank. -/
theorem c8_inserted_entry (look : String → String → Option OLMeta)
    (cur : List Book) (calls : List (String × String)) (it : CuratedItem)
    (h1 : strTrim it.title ≠ "") (h2 : strTrim it.author ≠ "")
    (h3 : findByTitleAuthor cur (strTrim it.title) (strTrim it.author) = none) :
    ∃ b : Book,
      seedStep look (cur, calls) it =
        (cur ++ [b], calls ++ [(strTrim it.title, strTrim it.author)]) ∧
      b.title = strTrim it.title ∧
      b.author = strTrim it.author ∧
      b.cover ≠ "" ∧
      (strTrim (metaField (look (strTrim it.title) (strTrim it.author)) (·.cover)) = "" →
        b.cover = PLACEHOLDER_COVER) ∧
      (strTrim (metaField (look (strTrim it.title) (strTrim it.author)) (·.cover)) ≠ "" →
        b.cover = strTrim (metaField (look (strTrim it.title) (strTrim it.author)) (·.cover))) ∧
      (it.genre = "" → b.genre = "Other") ∧
      (it.genre ≠ "" → b.genre = strTrim it.genre) ∧
      b.year = strTrim (metaField (look (strTrim it.title) (strTrim it.author)) (·.year)) ∧
      b.olid = strTrim (metaField (look (strTrim it.title) (strTrim it.author)) (·.olid)) ∧
      b.cover_i = strTrim (metaField (look (strTrim it.title) (strTrim it.author)) (·.cover_i)) ∧
      b.isbn = strTrim (metaField (look (strTrim it.title) (strTrim it.author)) (·.isbn)) := by
  refine ⟨mkSeedBook (strTrim it.title) (strTrim it.author) (strTrim (pyOr it.genre "Other"))
      (look (strTrim it.title) (strTrim it.author)),
    seedStep_insert look (cur, calls) it (by tauto) h3,
    rfl, rfl, ?_, ?_, ?_, ?_, ?_, rfl, rfl, rfl, rfl⟩
  · show pyOr (strTrim (metaField (look (strTrim it.title) (strTrim it.author)) (·.cover)))
        PLACEHOLDER_COVER ≠ ""
    unfold pyOr
    split
    next => decide
    next h => exact h
  · intro hc
    show pyOr (strTrim (metaField (look (strTrim it.title) (strTrim it.author)) (·.cover)))
        PLACEHOLDER_COVER = PLACEHOLDER_COVER
    unfold pyOr
    rw [if_pos hc]
  · intro hc
    show pyOr (strTrim (metaField (look (strTrim it.title) (strTrim it.author)) (·.cover)))
        PLACEHOLDER_COVER =
      strTrim (metaField (look (strTrim it.title) (strTrim it.author)) (·.cover))
    unfold pyOr
    rw [if_neg hc]
  · intro hg
    show strTrim (pyOr it.genre "Other") = "Other"
    unfold pyOr
    rw [if_pos hg]
    decide
  · intro hg
    show strTrim (pyOr it.genre "Other") = strTrim it.genre
    unfold pyOr
    rw [if_neg hg]

/-- C8 witness: an item whose lookup resolves nothing is stored with the
placeholder cover and its declared genre. -/
theorem c8_witness :
    strTrim "The Road" ≠ "" ∧ strTrim "Cormac McCarthy" ≠ "" ∧
    (∃ b : Book,
      seedStep (fun _ _ => none) ([], []) ⟨"The Road", "Cormac McCarthy", "Literary"⟩ =
        ([] ++ [b], [] ++ [(strTrim "The Road", strTrim "Cormac McCarthy")]) ∧
      b.title = strTrim "The Road" ∧
      b.author = strTrim "Cormac McCarthy" ∧
      b.cover ≠ "" ∧
      (strTrim (metaField ((fun _ _ => (none : Option OLMeta)) (strTrim "The Road")
          (strTrim "Cormac McCarthy")) (·.cover)) = "" → b.cover = PLACEHOLDER_COVER) ∧
      (strTrim (metaField ((fun _ _ => (none : Option OLMeta)) (strTrim "The Road")
          (strTrim "Cormac McCarthy")) (·.cover)) ≠ "" →
        b.cover = strTrim (metaField ((fun _ _ => (none : Option OLMeta)) (strTrim "The Road")
          (strTrim "Cormac McCarthy")) (·.cover))) ∧
      ((⟨"The Road", "Cormac McCarthy", "Literary"⟩ : CuratedItem).genre = "" →
        b.genre = "Other") ∧
      ((⟨"The Road", "Cormac McCarthy", "Literary"⟩ : CuratedItem).genre ≠ "" →
        b.genre = strTrim (⟨"The Road", "Cormac McCarthy", "Literary"⟩ : CuratedItem).genre) ∧
      b.year = strTrim (metaField ((fun _ _ => (none : Option OLMeta)) (strTrim "The Road")
          (strTrim "Cormac McCarthy")) (·.year)) ∧
      b.olid = strTrim (metaField ((fun _ _ => (none : Option OLMeta)) (strTrim "The Road")
          (strTrim "Cormac McCarthy")) (·.olid)) ∧
      b.cover_i = strTrim (metaField ((fun _ _ => (none : Option OLMeta)) (strTrim "The Road")
          (strTrim "Cormac McCarthy")) (·.cover_i)) ∧
      b.isbn = strTrim (metaField ((fun _ _ => (none : Option OLMeta)) (strTrim "The Road")
          (strTrim "Cormac McCarthy")) (·.isbn))) :=
  ⟨by decide, by decide,
   c8_inserted_entry (fun _ _ => none) [] [] ⟨"The Road", "Cormac McCarthy", "Literary"⟩
     (by decide) (by decide) rfl⟩

/-- C10: a curated item whose title or author trims to the empty string is
silently skipped — no external lookup, no insert — and removing it from the
pass leaves the rest of the pass unchanged. -/
theorem c10_blank_items_skipped :
    (∀ (look : String → String → Option OLMeta)
        (acc : List Book × List (String × String)) (it : CuratedItem),
      (strTrim it.title = "" ∨ strTrim it.author = "") →
      seedStep look acc it = acc) ∧
    (∀ (look : String → String → Option OLMeta) (l₁ l₂ : List CuratedItem)
        (it : CuratedItem) (acc : List Book × List (String × String)),
      (strTrim it.title = "" ∨ strTrim it.author = "") →
      (l₁ ++ it :: l₂).foldl (seedStep look) acc =
        (l₁ ++ l₂).foldl (seedStep look) acc) := by
  constructor
  · intro look acc it h
    exact seedStep_skip_blank look acc it h
  · intro look l₁ l₂ it acc h
    rw [List.foldl_append (seedStep look) acc l₁ (it :: l₂),
        List.foldl_append (seedStep look) acc l₁ l₂,
        List.foldl_cons, seedStep_skip_blank look _ it h]

/-- C10 witness: a whitespace-only title is skipped and the rest of the pass
is unaffected. -/
theorem c10_witness :
    (strTrim "   " = "" ∨ strTrim "A" = "") ∧
    ((([⟨"X", "Y", "G"⟩] : List CuratedItem) ++ (⟨"   ", "A", "G"⟩ : CuratedItem)
          :: ([⟨"Z", "W", "G"⟩] : List CuratedItem)).foldl
        (seedStep (fun _ _ => none)) ([], []) =
      (([⟨"X", "Y", "G"⟩] : List CuratedItem) ++ ([⟨"Z", "W", "G"⟩] : List CuratedItem)).foldl
        (seedStep (fun _ _ => none)) ([], [])) :=
  ⟨by decide,
   c10_blank_items_skipped.2 (fun _ _ => none) [⟨"X", "Y", "G"⟩] [⟨"Z", "W", "G"⟩]
     ⟨"   ", "A", "G"⟩ ([], []) (by decide)⟩
